import Mathlib

/-!
Verification of the AirQuality ingestion scripts: a shallow embedding of the
pagination / retry / flattening / batch-flush logic of
`scripts/run_full_ingestion.py` (with its near-duplicates
`scripts/ingest_openaq_data.py` and `scripts/nepal_ingestion.py`), together
with theorems settling the specification claims about that logic.
-/

namespace AirQuality

/-! ## JSON-like values

Python records handled by the scripts are JSON objects (dicts), strings,
numbers, booleans, nulls and arrays.  `Val` models these.  Numbers are
modelled as integers: none of the embedded logic computes with numeric
values, it only moves them around, so the carrier of a number is irrelevant.
-/

inductive Val : Type where
  | null : Val
  | bool (b : Bool) : Val
  | num (n : Int) : Val
  | str (s : String) : Val
  | obj (fields : List (String × Val)) : Val
  | arr (elems : List Val) : Val

/-- Python truthiness (`if not x`): `None`, `False`, `0`, `""`, `{}`, `[]`
are falsy, everything else truthy. -/
def Val.truthy : Val → Bool
  | .null => false
  | .bool b => b
  | .num n => n != 0
  | .str s => s != ""
  | .obj fs => !fs.isEmpty
  | .arr xs => !xs.isEmpty

def Val.isObj : Val → Bool
  | .obj _ => true
  | _ => false

/-- Python `d.get(k)`: on a dict, the stored value (or `None` when the key is
absent); on any non-dict value (in particular `None`), an `AttributeError`. -/
def Val.get1 (v : Val) (k : String) : Except String Val :=
  match v with
  | .obj fs => .ok ((fs.lookup k).getD .null)
  | _ => .error "AttributeError"

/-- Python `d.get(k, default)`: the default is used only when the key is
absent; a key that is present with value `None` yields `None`. -/
def Val.getDefault (v : Val) (k : String) (d : Val) : Except String Val :=
  match v with
  | .obj fs => .ok ((fs.lookup k).getD d)
  | _ => .error "AttributeError"

/-- One step of Python `dict.update`: replace the value of an existing key in
place, otherwise append the new key at the end (insertion order). -/
def dictInsert : List (String × Val) → String → Val → List (String × Val)
  | [], k, v => [(k, v)]
  | (k', v') :: fs, k, v =>
    if k' = k then (k, v) :: fs else (k', v') :: dictInsert fs k v

/-- Python `dict.update(kvs)` on the field list `fs`. -/
def dictUpdate (fs : List (String × Val)) (kvs : List (String × Val)) :
    List (String × Val) :=
  kvs.foldl (fun acc kv => dictInsert acc kv.1 kv.2) fs

/-! ## Flattener

`get_sensor_measurements_single` (run_full_ingestion.py lines 381-395)
injects sensor/location context into each raw measurement record via
`measurement.update({...})`.  The dict literal passed to `update` is
evaluated first (`contextCols`), then the raw record is updated.  Each
`.get` chain can raise `AttributeError` when an intermediate value is not a
dict (e.g. a present-but-null `"country"` field), which the `Except` monad
captures. -/

/-- The context-column dict literal of run_full_ingestion.py lines 383-395,
with the gets performed in source order.  `sid` is the `sensor_id` local and
`ts` the `ingestion_timestamp` value. -/
def contextCols (sensor_info sid ts : Val) : Except String (List (String × Val)) := do
  let sname ← sensor_info.get1 "sensor_name"
  let lid ← sensor_info.get1 "location_id"
  let lname ← sensor_info.get1 "location_name"
  let country ← sensor_info.getDefault "country" (.obj [])
  let cname ← country.get1 "name"
  let ccode ← country.get1 "code"
  let coords ← sensor_info.getDefault "coordinates" (.obj [])
  let lat ← coords.get1 "latitude"
  let lon ← coords.get1 "longitude"
  let tz ← sensor_info.get1 "timezone"
  let provider ← sensor_info.getDefault "provider" (.obj [])
  let pname ← provider.get1 "name"
  pure [("sensor_id", sid), ("sensor_name", sname), ("location_id", lid),
        ("location_name", lname), ("country_name", cname), ("country_code", ccode),
        ("coordinates_lat", lat), ("coordinates_lon", lon), ("timezone", tz),
        ("provider_name", pname), ("ingestion_timestamp", ts)]

/-- `measurement.update({...})` of run_full_ingestion.py lines 382-395: the
flat record is the raw measurement dict updated in place with the injected
context columns. -/
def flattenMeasurement (raw sensor_info sid ts : Val) : Except String Val := do
  let kvs ← contextCols sensor_info sid ts
  match raw with
  | .obj fs => pure (.obj (dictUpdate fs kvs))
  | _ => .error "AttributeError"

/-! ## HTTP client wrapper

`make_request` (run_full_ingestion.py lines 124-185).  Each attempt of the
`for attempt in range(retries + 1)` loop is classified by the exception
handler that fires:

* success                          → return the parsed body;
* `json.JSONDecodeError`           → `break` (no further attempt);
* every other handler (`Timeout`, HTTP 429, HTTP 5xx, other HTTP 4xx,
  `RequestException`) either `continue`s explicitly while attempts remain or
  lets the loop advance / exhaust, so control proceeds to the next attempt
  uniformly, and after the last attempt the function returns `None`.

`Nat → FetchOutcome B` simulates what each successive call would produce.
The result records the parsed body or the classification of the attempt on
which the loop gave up, plus the number of calls actually issued. -/

inductive FailKind : Type where
  | timeout        -- requests.exceptions.Timeout
  | rateLimited    -- HTTPError with status 429
  | serverError    -- HTTPError with status >= 500
  | clientError    -- HTTPError with other 4xx status
  | networkError   -- other requests.exceptions.RequestException
  | malformed      -- json.JSONDecodeError from response.json()
  deriving DecidableEq

inductive FetchOutcome (B : Type) : Type where
  | success (body : B)
  | failure (k : FailKind)

/-- The retry loop of `make_request`: `attempt` is the 0-based index of the
call about to be made, `remaining` the number of further attempts the loop
would still allow after it. -/
def makeRequestAux {B : Type} (outcomes : Nat → FetchOutcome B) :
    Nat → Nat → Except FailKind B × Nat
  | attempt, 0 =>
    match outcomes attempt with
    | .success b => (.ok b, attempt + 1)
    | .failure k => (.error k, attempt + 1)
  | attempt, remaining + 1 =>
    match outcomes attempt with
    | .success b => (.ok b, attempt + 1)
    | .failure .malformed => (.error .malformed, attempt + 1)
    | .failure _ => makeRequestAux outcomes (attempt + 1) remaining

/-- `make_request(endpoint, params, retries)`: at most `retries + 1` calls. -/
def make_request {B : Type} (outcomes : Nat → FetchOutcome B) (retries : Nat) :
    Except FailKind B × Nat :=
  makeRequestAux outcomes 0 retries

/-! ## Paginator

`get_all_locations_for_country` (run_full_ingestion.py lines 198-233).
`api page` models `make_request("locations", {..., page, limit})` returning
the parsed body's `results` list, or `none` when `make_request` returned a
falsy response.  `fuel` bounds the number of loop iterations; the theorems
show the result is reached within `fuel` whenever `fuel` is large enough,
which is exactly the loop's termination. -/

def getAllLocationsAux {α : Type} (api : Nat → Option (List α)) (limit : Nat) :
    Nat → Nat → List α × Nat
  | _, 0 => ([], 0)
  | page, fuel + 1 =>
    match api page with
    | none => ([], 1)
    | some results =>
      if results.length = 0 then ([], 1)
      else if results.length < limit then (results, 1)
      else
        let r := getAllLocationsAux api limit (page + 1) fuel
        (results ++ r.1, r.2 + 1)

/-- The pagination loop started at `page = 1`; returns the accumulated
records and the number of requests issued. -/
def get_all_locations_for_country {α : Type} (api : Nat → Option (List α))
    (limit fuel : Nat) : List α × Nat :=
  getAllLocationsAux api limit 1 fuel

/-- Page `p` (1-based) of size `L` of a finite result stream, as a
consistent API serves it. -/
def servedPage {α : Type} (stream : List α) (L p : Nat) : List α :=
  (stream.drop ((p - 1) * L)).take L

/-- An API that serves the whole stream consistently. -/
def consistentApi {α : Type} (stream : List α) (L : Nat) :
    Nat → Option (List α) :=
  fun p => some (servedPage stream L p)

/-- An API that serves the stream consistently for the first `k` pages and
then fails terminally (its `make_request` returns `None`). -/
def flakyApi {α : Type} (stream : List α) (L k : Nat) :
    Nat → Option (List α) :=
  fun p => if p ≤ k then some (servedPage stream L p) else none

/-! ## Measurement collection for one sensor

`get_sensor_measurements_single` (run_full_ingestion.py lines 336-405):
skip sensors with a falsy `sensor_id`, otherwise paginate the sensor's
measurements endpoint, injecting the context columns into every raw record
of every page. -/

def measLoopAux (api : Nat → Option (List Val)) (sensor_info sid ts : Val)
    (limit : Nat) : Nat → Nat → Except String (List Val) × Nat
  | _, 0 => (.ok [], 0)
  | page, fuel + 1 =>
    match api page with
    | none => (.ok [], 1)
    | some results =>
      if results.length = 0 then (.ok [], 1)
      else
        match results.mapM (fun m => flattenMeasurement m sensor_info sid ts) with
        | .error e => (.error e, 1)
        | .ok flats =>
          if results.length < limit then (.ok flats, 1)
          else
            let r := measLoopAux api sensor_info sid ts limit (page + 1) fuel
            ((fun rest => flats ++ rest) <$> r.1, r.2 + 1)

/-- `get_sensor_measurements_single(sensor_info, ...)`: reads `sensor_id`
from the sensor record, returns `[]` after zero requests when it is falsy
(`if not sensor_id: return []`), otherwise runs the pagination loop. -/
def get_sensor_measurements_single (api : Nat → Option (List Val))
    (sensor_info ts : Val) (limit fuel : Nat) : Except String (List Val) × Nat :=
  match sensor_info.get1 "sensor_id" with
  | .error e => (.error e, 0)
  | .ok sid =>
    if sid.truthy then measLoopAux api sensor_info sid ts limit 1 fuel
    else (.ok [], 0)

/-! ## Batch buffer, flusher and orchestrator

The measurement phase of `run_full_ingestion` (lines 514-559): the buffer
`current_batch` is extended with each sensor batch's measurements; when its
length reaches `batch_size` the whole buffer is passed to
`save_batch_to_parquet` and then cleared and `batch_count` incremented —
unconditionally, whether or not the save succeeded
(`save_batch_to_parquet`, lines 407-437, catches any exception and only
logs it).  `saveOk` models whether a given parquet write succeeds; `written`
collects the batches that actually reached storage. -/

structure BufState (M : Type) : Type where
  buffer : List M
  written : List (List M)
  count : Nat        -- stats['total_measurements']
  batchCount : Nat   -- stats['batch_count']

/-- One iteration of the sensor-batch loop (lines 527-539): extend the
buffer with the chunk of measurements just collected and flush if the
threshold is reached. -/
def flushStep {M : Type} (batch_size : Nat) (saveOk : List M → Bool)
    (st : BufState M) (chunk : List M) : BufState M :=
  let buf := st.buffer ++ chunk
  let cnt := st.count + chunk.length
  if batch_size ≤ buf.length then
    { buffer := [],
      written := if saveOk buf then st.written ++ [buf] else st.written,
      count := cnt, batchCount := st.batchCount + 1 }
  else
    { st with buffer := buf, count := cnt }

/-- The whole measurement phase: fold the sensor-batch loop over the chunks
of measurements the sensor batches produce. -/
def run_measurement_phase {M : Type} (batch_size : Nat) (saveOk : List M → Bool)
    (chunks : List (List M)) : BufState M :=
  chunks.foldl (flushStep batch_size saveOk) ⟨[], [], 0, 0⟩

structure RunSummary : Type where
  status : String
  total_measurements : Nat
  batch_count : Nat
  deriving DecidableEq

structure RunOutcome (M : Type) : Type where
  written : List (List M)
  summary : RunSummary

/-- `run_full_ingestion` lines 514-559: on normal completion the remaining
buffer is saved (lines 543-552) and a summary with status "completed" is
written; a `KeyboardInterrupt` arriving before chunk `k` is processed jumps
straight to the handler (lines 557-559), which only writes a summary with
status "interrupted" — the final-batch save inside the `try` block is
skipped. -/
def run_full_ingestion {M : Type} (batch_size : Nat) (saveOk : List M → Bool)
    (chunks : List (List M)) (interruptAt : Option Nat) : RunOutcome M :=
  match interruptAt with
  | none =>
    let st := run_measurement_phase batch_size saveOk chunks
    if st.buffer.isEmpty then
      ⟨st.written, ⟨"completed", st.count, st.batchCount⟩⟩
    else
      ⟨if saveOk st.buffer then st.written ++ [st.buffer] else st.written,
       ⟨"completed", st.count, st.batchCount + 1⟩⟩
  | some k =>
    let st := run_measurement_phase batch_size saveOk (chunks.take k)
    ⟨st.written, ⟨"interrupted", st.count, st.batchCount⟩⟩

/-! ## Auxiliary definitions used by concrete claim instances -/

/-- Whether field `k` of a context record supports a nested `.get`: in
Python, `ctx.get(k, {}).get(...)` succeeds iff `ctx.get(k, {})` is a dict,
which holds when the key is absent (the default is a dict) or when the
stored value is itself a dict. -/
def ctxFieldIsObj (ctx : Val) (k : String) : Bool :=
  match ctx with
  | .obj fs => ((fs.lookup k).getD (.obj [])).isObj
  | _ => false

/-- Simulated call outcomes `[Timeout, Timeout, Success body]`. -/
def timeoutsThenSuccess (body : Nat) : Nat → FetchOutcome Nat :=
  fun n => if n < 2 then .failure .timeout else .success body

/-- Simulated call outcomes `[RateLimited, RateLimited, ...]`. -/
def alwaysRateLimited : Nat → FetchOutcome Nat :=
  fun _ => .failure .rateLimited

/-- A concrete raw measurement record. -/
def rawW : Val :=
  .obj [("value", .num 42), ("datetime", .str "2024-01-01")]

/-- A concrete sensor-context record with location id, name and
coordinates. -/
def ctxW : Val :=
  .obj [("sensor_id", .num 3), ("sensor_name", .str "pm25"),
        ("location_id", .num 7), ("location_name", .str "Kathmandu"),
        ("coordinates", .obj [("latitude", .num 27), ("longitude", .num 85)])]

/-- The flat record `flattenMeasurement` produces for `rawW` and `ctxW`. -/
def flatW : Val :=
  match flattenMeasurement rawW ctxW (.num 3) (.str "t0") with
  | .ok v => v
  | .error _ => .null

/-! ## Helper lemmas -/

theorem exceptBind_ok {ε α β : Type} {x : Except ε α} {f : α → Except ε β} {b : β}
    (h : x >>= f = .ok b) : ∃ a, x = .ok a ∧ f a = .ok b := by
  cases x with
  | error e => exact absurd h (by simp [Bind.bind, Except.bind])
  | ok a => exact ⟨a, rfl, by simpa [Bind.bind, Except.bind] using h⟩

theorem lookup_dictInsert_self (fs : List (String × Val)) (k : String) (v : Val) :
    (dictInsert fs k v).lookup k = some v := by
  induction fs with
  | nil => simp [dictInsert]
  | cons p fs ih =>
    obtain ⟨k', v'⟩ := p
    by_cases h : k' = k
    · simp [dictInsert, h]
    · have hbeq : (k == k') = false := beq_eq_false_iff_ne.mpr (Ne.symm h)
      simp [dictInsert, h, List.lookup, hbeq, ih]

theorem lookup_dictInsert_ne (fs : List (String × Val)) (k k' : String) (v : Val)
    (h : k' ≠ k) : (dictInsert fs k v).lookup k' = fs.lookup k' := by
  have hbeq : (k' == k) = false := beq_eq_false_iff_ne.mpr h
  induction fs with
  | nil => simp [dictInsert, List.lookup, hbeq]
  | cons p fs ih =>
    obtain ⟨k₀, v₀⟩ := p
    by_cases h0 : k₀ = k
    · subst h0
      simp [dictInsert, List.lookup, hbeq]
    · have hbeq0 : (k₀ == k) = false := beq_eq_false_iff_ne.mpr h0
      simp [dictInsert, hbeq0, h0, List.lookup, ih]

/-- Retrying a fetch that always yields an HTTP 4xx status other than 429:
the exception handler for it logs and falls through without `break`, so the
loop advances and every remaining attempt is consumed. -/
theorem makeRequestAux_clientError {B : Type} :
    ∀ (remaining attempt : Nat),
      makeRequestAux (fun _ => (.failure .clientError : FetchOutcome B)) attempt remaining
        = (.error .clientError, attempt + remaining + 1) := by
  intro remaining
  induction remaining with
  | zero => intro attempt; rfl
  | succ r ih =>
    intro attempt
    rw [makeRequestAux, ih (attempt + 1),
      show attempt + 1 + r + 1 = attempt + (r + 1) + 1 from by omega]

/-- Two APIs that agree after a one-page shift drive the pagination loop to
the same result. -/
theorem getAllLocationsAux_congr {α : Type} (limit : Nat)
    (api api' : Nat → Option (List α))
    (hshift : ∀ p, 1 ≤ p → api (p + 1) = api' p) :
    ∀ (fuel page : Nat), 1 ≤ page →
      getAllLocationsAux api limit (page + 1) fuel = getAllLocationsAux api' limit page fuel := by
  intro fuel
  induction fuel with
  | zero => intro page _; rfl
  | succ f ih =>
    intro page hp
    rw [getAllLocationsAux, getAllLocationsAux, hshift page hp]
    cases h : api' page with
    | none => rfl
    | some results =>
      by_cases h0 : results.length = 0
      · simp [h0]
      · by_cases h1 : results.length < limit
        · simp [h0, h1]
        · simp only [h0, h1, if_false]
          rw [ih (page + 1) (by omega)]

theorem servedPage_shift {α : Type} (stream : List α) (L : Nat) :
    ∀ p, 1 ≤ p → servedPage stream L (p + 1) = servedPage (stream.drop L) L p := by
  intro p hp
  obtain ⟨q, rfl⟩ : ∃ q, p = q + 1 := ⟨p - 1, by omega⟩
  simp [servedPage, List.drop_drop]
  congr 2
  ring

/-- The pagination loop over a consistently served stream of `n` records
with page size `L` collects the whole stream in exactly `n / L + 1`
requests, for any fuel of at least that many iterations. -/
theorem consistent_pagination {α : Type} (L : Nat) (hL : 1 ≤ L) :
    ∀ (fuel : Nat) (stream : List α), stream.length / L + 1 ≤ fuel →
      getAllLocationsAux (consistentApi stream L) L 1 fuel = (stream, stream.length / L + 1) := by
  intro fuel
  induction fuel with
  | zero => intro s h; exact (Nat.not_succ_le_zero _ h).elim
  | succ f ih =>
    intro stream hfuel
    rw [getAllLocationsAux]
    have h1 : consistentApi stream L 1 = some (stream.take L) := by
      simp [consistentApi, servedPage]
    rw [h1]
    by_cases h0 : (stream.take L).length = 0
    · have hs : stream = [] := by
        cases stream with
        | nil => rfl
        | cons a as =>
          exfalso
          rw [List.length_take] at h0
          simp at h0
          omega
      subst hs
      simp
    · by_cases hshort : (stream.take L).length < L
      · have hlen : stream.length < L := by
          rw [List.length_take] at hshort
          omega
        simp only [h0, hshort, if_false, if_true, if_pos, if_neg]
        rw [List.take_of_length_le (le_of_lt hlen), Nat.div_eq_of_lt hlen]
      · have hfull : L ≤ stream.length := by
          rw [List.length_take] at hshort
          omega
        simp only [h0, hshort, if_false]
        have hcongr := getAllLocationsAux_congr L (consistentApi stream L)
          (consistentApi (stream.drop L) L)
          (fun p hp => by simp [consistentApi, servedPage_shift stream L p hp]) f 1 le_rfl
        rw [hcongr]
        obtain ⟨msub, hm⟩ : ∃ m, stream.length = m + L := ⟨stream.length - L, by omega⟩
        have hdiv : stream.length / L = msub / L + 1 := by
          rw [hm, Nat.add_div_right _ (by omega)]
        have hdroplen : (stream.drop L).length = msub := by
          rw [List.length_drop, hm]
          omega
        rw [ih (stream.drop L) (by rw [hdroplen]; omega)]
        rw [hdroplen, List.take_append_drop]
        rw [hdiv]

theorem ceil_div_of_not_dvd (L n : Nat) (hL : 1 ≤ L) (h : ¬ L ∣ n) :
    (n + L - 1) / L = n / L + 1 := by
  have hmod : n % L < L := Nat.mod_lt _ (by omega)
  have hr : n % L ≠ 0 := fun hc => h (Nat.dvd_of_mod_eq_zero hc)
  have hqr : L * (n / L) + n % L = n := Nat.div_add_mod n L
  have key : n + L - 1 = L * (n / L + 1) + (n % L - 1) := by
    have hx : L * (n / L + 1) = L * (n / L) + L := by ring
    generalize n / L = q at *
    generalize n % L = r at *
    omega
  rw [key, Nat.mul_add_div (show 0 < L by omega),
    Nat.div_eq_of_lt (show n % L - 1 < L by omega)]

theorem ceil_div_of_dvd (L n : Nat) (hL : 1 ≤ L) (h : L ∣ n) :
    (n + L - 1) / L = n / L := by
  obtain ⟨q, rfl⟩ := h
  have key : L * q + L - 1 = L * q + (L - 1) := by omega
  rw [key, Nat.mul_add_div (show 0 < L by omega),
    Nat.div_eq_of_lt (show L - 1 < L by omega),
    Nat.mul_div_cancel_left _ (show 0 < L by omega)]
  simp

/-- Pagination against an API that serves `k` full consistent pages and then
fails terminally: the loop stops at the failure and returns the `k * L`
records accumulated so far, after `k + 1` requests. -/
theorem flaky_pagination {α : Type} (L : Nat) (hL : 1 ≤ L) :
    ∀ (k : Nat) (stream : List α) (fuel : Nat), k * L ≤ stream.length → k + 1 ≤ fuel →
      getAllLocationsAux (flakyApi stream L k) L 1 fuel = (stream.take (k * L), k + 1) := by
  intro k
  induction k with
  | zero =>
    intro stream fuel _ hf
    obtain ⟨f, rfl⟩ : ∃ f, fuel = f + 1 := ⟨fuel - 1, by omega⟩
    rw [getAllLocationsAux]
    have h1 : flakyApi stream L 0 1 = none := by simp [flakyApi]
    rw [h1]
    simp
  | succ k ih =>
    intro stream fuel hk hf
    obtain ⟨f, rfl⟩ : ∃ f, fuel = f + 1 := ⟨fuel - 1, by omega⟩
    rw [getAllLocationsAux]
    have h1 : flakyApi stream L (k + 1) 1 = some (stream.take L) := by
      simp [flakyApi, servedPage]
    rw [h1]
    have hsm : (k + 1) * L = k * L + L := Nat.succ_mul k L
    have hfull : L ≤ stream.length := by omega
    have hlen : (stream.take L).length = L := by
      rw [List.length_take]
      omega
    have h0 : ¬ (stream.take L).length = 0 := by omega
    have hshort : ¬ (stream.take L).length < L := by omega
    simp only [h0, hshort, if_false]
    have hcongr := getAllLocationsAux_congr L (flakyApi stream L (k + 1))
      (flakyApi (stream.drop L) L k)
      (fun p hp => by
        simp only [flakyApi]
        by_cases hpk : p ≤ k
        · rw [if_pos (by omega), if_pos hpk, servedPage_shift stream L p hp]
        · rw [if_neg (by omega), if_neg hpk]) f 1 le_rfl
    rw [hcongr]
    have hkL : k * L ≤ (stream.drop L).length := by
      rw [List.length_drop]
      omega
    rw [ih (stream.drop L) f hkL (by omega)]
    have htake : stream.take ((k + 1) * L) = stream.take L ++ (stream.drop L).take (k * L) := by
      rw [show (k + 1) * L = L + k * L from by omega, List.take_add]
    rw [htake]

/-- A single chunk whose size reaches the threshold is flushed whole: the
entire buffer is written and cleared. -/
theorem run_measurement_phase_single {M : Type} (B : Nat) (ok : List M → Bool)
    (c : List M) (h : B ≤ c.length) (hok : ok c = true) :
    run_measurement_phase B ok [c] = ⟨[], [c], c.length, 1⟩ := by
  simp [run_measurement_phase, flushStep, h, hok]

/-- A run of single-record chunks below-threshold buffers: every flush holds
exactly `B` records, `(b + n) / B` flushes happen and `(b + n) % B` records
stay buffered. -/
theorem flushStep_singles {M : Type} (B : Nat) (hB : 0 < B) (m : M) :
    ∀ (n : Nat) (st : BufState M), st.buffer.length < B →
      ((List.replicate n [m]).foldl (flushStep B (fun _ => true)) st).buffer.length
          = (st.buffer.length + n) % B ∧
      ((List.replicate n [m]).foldl (flushStep B (fun _ => true)) st).written.map List.length
          = st.written.map List.length ++ List.replicate ((st.buffer.length + n) / B) B ∧
      ((List.replicate n [m]).foldl (flushStep B (fun _ => true)) st).count = st.count + n := by
  intro n
  induction n with
  | zero =>
    intro st h
    simp [Nat.mod_eq_of_lt h, Nat.div_eq_of_lt h]
  | succ k ih =>
    intro st h
    rw [List.replicate_succ, List.foldl_cons]
    by_cases hf : B ≤ st.buffer.length + 1
    · have hlen : st.buffer.length + 1 = B := by omega
      have hstep : flushStep B (fun _ => true) st [m]
          = ⟨[], st.written ++ [st.buffer ++ [m]], st.count + 1, st.batchCount + 1⟩ := by
        simp [flushStep, hf]
      rw [hstep]
      obtain ⟨h1, h2, h3⟩ := ih ⟨[], st.written ++ [st.buffer ++ [m]], st.count + 1, st.batchCount + 1⟩ (by simpa using hB)
      have harith : st.buffer.length + (k + 1) = B + k := by omega
      refine ⟨?_, ?_, ?_⟩
      · rw [h1, harith]; simp [Nat.add_mod_left]
      · rw [h2, harith, Nat.add_div_left _ hB, List.replicate_succ]
        simp [hlen]
      · rw [h3]; simp; omega
    · have hstep : flushStep B (fun _ => true) st [m]
          = { st with buffer := st.buffer ++ [m], count := st.count + 1 } := by
        simp [flushStep, hf]
      rw [hstep]
      obtain ⟨h1, h2, h3⟩ := ih { st with buffer := st.buffer ++ [m], count := st.count + 1 } (by simp; omega)
      have harith : st.buffer.length + 1 + k = st.buffer.length + (k + 1) := by omega
      refine ⟨?_, ?_, ?_⟩
      · rw [h1]; simp [harith]
      · rw [h2]; simp [harith]
      · rw [h3]; simp; omega

/-- Conservation through the measurement phase (with successful saves): the
measurement counter totals the chunk sizes, and every collected record is
either in a written batch or still in the buffer. -/
theorem flushStep_invariant {M : Type} (B : Nat) :
    ∀ (chunks : List (List M)) (st : BufState M),
      (chunks.foldl (flushStep B (fun _ => true)) st).count
          = st.count + (chunks.map List.length).sum ∧
      ((chunks.foldl (flushStep B (fun _ => true)) st).written.map List.length).sum
            + (chunks.foldl (flushStep B (fun _ => true)) st).buffer.length
          = (st.written.map List.length).sum + st.buffer.length + (chunks.map List.length).sum := by
  intro chunks
  induction chunks with
  | nil => intro st; simp
  | cons c cs ih =>
    intro st
    rw [List.foldl_cons]
    by_cases hf : B ≤ st.buffer.length + c.length
    · have hstep : flushStep B (fun _ => true) st c
          = ⟨[], st.written ++ [st.buffer ++ c], st.count + c.length, st.batchCount + 1⟩ := by
        simp [flushStep, hf]
      rw [hstep]
      obtain ⟨h1, h2⟩ := ih ⟨[], st.written ++ [st.buffer ++ c], st.count + c.length, st.batchCount + 1⟩
      constructor
      · rw [h1]; simp; omega
      · rw [h2]; simp; omega
    · have hstep : flushStep B (fun _ => true) st c
          = { st with buffer := st.buffer ++ c, count := st.count + c.length } := by
        simp [flushStep, hf]
      rw [hstep]
      obtain ⟨h1, h2⟩ := ih { st with buffer := st.buffer ++ c, count := st.count + c.length }
      constructor
      · rw [h1]; simp; omega
      · rw [h2]; simp; omega

/-! ## Claim C1: flush threshold behaviour -/

/-- Claim C1 counterexample: the claim says a flush at the threshold writes
exactly threshold-many records and leaves the remainder buffered.  In the
code, the whole buffer is saved and cleared: a run in which 75,001 records
arrive in one sensor-batch chunk (threshold 75,000) performs one flush of
75,001 records and leaves the buffer empty, not 1 record. -/
theorem C1_counterexample :
    (run_measurement_phase 75000 (fun _ => true) [List.replicate 75001 0]).written.map List.length
        = [75001]
    ∧ (run_measurement_phase 75000 (fun _ => true) [List.replicate 75001 0]).buffer = [] := by
  have h := run_measurement_phase_single 75000 (fun _ => true) (List.replicate 75001 0)
    (by rw [List.length_replicate]; norm_num) rfl
  rw [h]
  constructor
  · rw [List.map_cons, List.map_nil, List.length_replicate]
  · rfl

/-- Claim C1 (amended): a flush triggered by the threshold writes the entire
buffer and clears it; in particular, when 75,001 records are added one at a
time with threshold 75,000, the buffer reaches 75,000 exactly once, that
flush writes exactly 75,000 records, and 1 record remains buffered. -/
theorem C1_amended {M : Type} (m : M) :
    (run_measurement_phase 75000 (fun _ => true) (List.replicate 75001 [m])).written.map List.length
        = [75000]
    ∧ (run_measurement_phase 75000 (fun _ => true) (List.replicate 75001 [m])).buffer.length = 1 := by
  obtain ⟨h1, h2, h3⟩ := flushStep_singles 75000 (by norm_num) m 75001
    ⟨[], [], 0, 0⟩ (by simp)
  constructor
  · rw [run_measurement_phase, h2]
    norm_num
  · rw [run_measurement_phase, h1]
    norm_num

/-! ## Claim C2: flush failure and the buffer -/

/-- Claim C2 counterexample: the claim says a failed flush leaves the buffer
intact for a later retry.  In the code, `save_batch_to_parquet` swallows the
exception and the caller clears the buffer unconditionally: with threshold 2
and a failing save, the two buffered records are in neither the buffer nor
the written batches afterwards. -/
theorem C2_counterexample :
    (flushStep 2 (fun _ => false) ⟨[], [], 0, 0⟩ [true, false]).buffer = []
    ∧ (flushStep 2 (fun _ => false) ⟨[], [], 0, 0⟩ [true, false]).written = [] :=
  ⟨rfl, rfl⟩

/-- Claim C2 (amended): when the threshold is reached, the buffer is cleared
and the batch counter incremented regardless of whether the parquet write
succeeds; if the write fails, nothing is added to storage, so the records of
the failed batch are discarded rather than retained. -/
theorem C2_amended {M : Type} (batch_size : Nat) (saveOk : List M → Bool)
    (st : BufState M) (chunk : List M)
    (h : batch_size ≤ (st.buffer ++ chunk).length) :
    (flushStep batch_size saveOk st chunk).buffer = []
    ∧ (saveOk (st.buffer ++ chunk) = false →
        (flushStep batch_size saveOk st chunk).written = st.written)
    ∧ (flushStep batch_size saveOk st chunk).batchCount = st.batchCount + 1 := by
  have h' : batch_size ≤ st.buffer.length + chunk.length := by simpa using h
  refine ⟨by simp [flushStep, h'], ?_, by simp [flushStep, h']⟩
  intro hok
  simp [flushStep, h', hok]

/-- Claim C2 amended witness at a concrete failing flush. -/
theorem C2_amended_witness :
    (flushStep 2 (fun _ => false) (⟨[], [], 0, 0⟩ : BufState Bool) [true, false]).buffer = []
    ∧ ((fun _ => false : List Bool → Bool)
          ((⟨[], [], 0, 0⟩ : BufState Bool).buffer ++ [true, false]) = false →
        (flushStep 2 (fun _ => false) (⟨[], [], 0, 0⟩ : BufState Bool) [true, false]).written
          = (⟨[], [], 0, 0⟩ : BufState Bool).written)
    ∧ (flushStep 2 (fun _ => false) (⟨[], [], 0, 0⟩ : BufState Bool) [true, false]).batchCount
        = (⟨[], [], 0, 0⟩ : BufState Bool).batchCount + 1 :=
  C2_amended 2 (fun _ => false) ⟨[], [], 0, 0⟩ [true, false] (by simp)

/-! ## Claim C3: no retry on ClientError / MalformedResponse -/

/-- Claim C3 counterexample: the claim says a ClientError (HTTP 4xx other
than 429) is surfaced after a single call with no retry.  In `make_request`
the handler for such an error logs and falls through without `break`, so
with `retries = 3` a request that always yields a ClientError is attempted
4 times, not once. -/
theorem C3_counterexample :
    make_request (fun _ => (.failure .clientError : FetchOutcome Unit)) 3
      = (.error .clientError, 4) := rfl

/-- Claim C3 (amended): `make_request` surfaces a MalformedResponse (JSON
decode error) immediately after the single failing call with no retry, but
it retries ClientError outcomes like transient failures, making all
`retries + 1` calls before surfacing the failure. -/
theorem C3_amended :
    (∀ (β : Type) (outcomes : Nat → FetchOutcome β) (retries : Nat),
        outcomes 0 = .failure .malformed →
        make_request outcomes retries = (.error .malformed, 1))
    ∧ ∀ (retries : Nat),
        make_request (fun _ => (.failure .clientError : FetchOutcome Unit)) retries
          = (.error .clientError, retries + 1) := by
  constructor
  · intro β outcomes retries h
    cases retries with
    | zero => simp [make_request, makeRequestAux, h]
    | succ r => simp [make_request, makeRequestAux, h]
  · intro retries
    have h0 := makeRequestAux_clientError (B := Unit) retries 0
    rw [Nat.zero_add] at h0
    exact h0

/-- Claim C3 amended witness: a malformed first response with `retries = 3`
yields failure after exactly 1 call. -/
theorem C3_amended_witness :
    make_request (fun _ => (.failure .malformed : FetchOutcome Unit)) 3
      = (.error .malformed, 1) :=
  C3_amended.1 Unit (fun _ => .failure .malformed) 3 rfl

/-! ## Claim C4: paginator request count -/

/-- Claim C4: against a consistently served stream of `n` records with page
size `L ≥ 1`, the pagination loop collects the whole stream and issues
exactly `n / L + 1` requests, for every sufficient fuel (termination); this
equals `ceil(n / L)` requests when the last page is short, and
`ceil(n / L) + 1` (the extra empty-page request) when `L` divides `n`. -/
theorem C4_pagination_requests {α : Type} (L fuel : Nat) (stream : List α)
    (hL : 1 ≤ L) (hfuel : stream.length / L + 1 ≤ fuel) :
    get_all_locations_for_country (consistentApi stream L) L fuel
        = (stream, stream.length / L + 1)
    ∧ (¬ L ∣ stream.length →
        stream.length / L + 1 = (stream.length + L - 1) / L)
    ∧ (L ∣ stream.length →
        stream.length / L + 1 = (stream.length + L - 1) / L + 1) := by
  refine ⟨consistent_pagination L hL fuel stream hfuel, ?_, ?_⟩
  · intro h
    rw [ceil_div_of_not_dvd L _ hL h]
  · intro h
    rw [ceil_div_of_dvd L _ hL h]

/-- Claim C4 witness: a stream of 1400 records with page size 1000 (pages of
1000 and 400) is collected whole in exactly 2 requests. -/
theorem C4_witness :
    get_all_locations_for_country (consistentApi (List.replicate 1400 0) 1000) 1000 2
        = (List.replicate 1400 0, (List.replicate 1400 0).length / 1000 + 1) :=
  (C4_pagination_requests 1000 2 (List.replicate 1400 0) (by norm_num)
    (by rw [List.length_replicate])).1

/-! ## Claim C5: retry policy call counts -/

/-- Claim C5: with `retries = 3`, the simulated sequence
`[Timeout, Timeout, Success]` makes exactly 3 calls and returns the 3rd
call's parsed body; the all-RateLimited sequence makes exactly 4 calls
(initial plus 3 retries) and ends in a terminal RateLimited failure. -/
theorem C5_retry_policy (body : Nat) :
    make_request (timeoutsThenSuccess body) 3 = (.ok body, 3)
    ∧ make_request alwaysRateLimited 3 = (.error .rateLimited, 4) :=
  ⟨rfl, rfl⟩

/-! ## Claim C6: flattening never fails -/

/-- Claim C6 counterexample: the claim says flattening never fails, with
missing nested fields defaulting to null.  A parent context whose
`"country"` field is present but null makes
`sensor_info.get("country", {}).get("name")` raise an `AttributeError`
(`.get` on `None`), so `flattenMeasurement` fails on it. -/
theorem C6_counterexample :
    flattenMeasurement (.obj []) (.obj [("country", .null)]) .null .null
      = .error "AttributeError" := rfl

/-- Claim C6 (amended): flattening is deterministic and never fails provided
the raw record and parent context are dicts and the nested context fields
(`country`, `coordinates`, `provider`) are each absent or themselves dicts;
truly missing fields default to null.  (A present-but-null nested field
raises, and the injection happens by in-place `dict.update` of the raw
record.) -/
theorem C6_amended (raw ctx sid ts : Val)
    (hraw : raw.isObj = true) (hctx : ctx.isObj = true)
    (hcountry : ctxFieldIsObj ctx "country" = true)
    (hcoords : ctxFieldIsObj ctx "coordinates" = true)
    (hprov : ctxFieldIsObj ctx "provider" = true) :
    ∃ flat, flattenMeasurement raw ctx sid ts = .ok flat := by
  cases raw with
  | obj fs =>
    cases ctx with
    | obj gs =>
      rw [ctxFieldIsObj] at hcountry hcoords hprov
      cases hcv : (gs.lookup "country").getD (Val.obj []) with
      | obj cfs =>
        cases hdv : (gs.lookup "coordinates").getD (Val.obj []) with
        | obj dfs =>
          cases hpv : (gs.lookup "provider").getD (Val.obj []) with
          | obj pfs =>
            cases hres : flattenMeasurement (Val.obj fs) (Val.obj gs) sid ts with
            | ok flat => exact ⟨flat, rfl⟩
            | error e =>
              exfalso
              rw [flattenMeasurement, contextCols] at hres
              simp [Val.get1, Val.getDefault, hcv, hdv, hpv, Bind.bind,
                Except.bind, Pure.pure, Except.pure] at hres
          | null => rw [hpv] at hprov; exact absurd hprov (by simp [Val.isObj])
          | bool b => rw [hpv] at hprov; exact absurd hprov (by simp [Val.isObj])
          | num n => rw [hpv] at hprov; exact absurd hprov (by simp [Val.isObj])
          | str s => rw [hpv] at hprov; exact absurd hprov (by simp [Val.isObj])
          | arr xs => rw [hpv] at hprov; exact absurd hprov (by simp [Val.isObj])
        | null => rw [hdv] at hcoords; exact absurd hcoords (by simp [Val.isObj])
        | bool b => rw [hdv] at hcoords; exact absurd hcoords (by simp [Val.isObj])
        | num n => rw [hdv] at hcoords; exact absurd hcoords (by simp [Val.isObj])
        | str s => rw [hdv] at hcoords; exact absurd hcoords (by simp [Val.isObj])
        | arr xs => rw [hdv] at hcoords; exact absurd hcoords (by simp [Val.isObj])
      | null => rw [hcv] at hcountry; exact absurd hcountry (by simp [Val.isObj])
      | bool b => rw [hcv] at hcountry; exact absurd hcountry (by simp [Val.isObj])
      | num n => rw [hcv] at hcountry; exact absurd hcountry (by simp [Val.isObj])
      | str s => rw [hcv] at hcountry; exact absurd hcountry (by simp [Val.isObj])
      | arr xs => rw [hcv] at hcountry; exact absurd hcountry (by simp [Val.isObj])
    | null => exact absurd hctx (by simp [Val.isObj])
    | bool b => exact absurd hctx (by simp [Val.isObj])
    | num n => exact absurd hctx (by simp [Val.isObj])
    | str s => exact absurd hctx (by simp [Val.isObj])
    | arr xs => exact absurd hctx (by simp [Val.isObj])
  | null => exact absurd hraw (by simp [Val.isObj])
  | bool b => exact absurd hraw (by simp [Val.isObj])
  | num n => exact absurd hraw (by simp [Val.isObj])
  | str s => exact absurd hraw (by simp [Val.isObj])
  | arr xs => exact absurd hraw (by simp [Val.isObj])

/-- Claim C6 amended witness at a concrete raw record and context. -/
theorem C6_amended_witness :
    ∃ flat, flattenMeasurement (.obj [("value", .num 5)]) (.obj []) .null .null
      = .ok flat :=
  C6_amended (.obj [("value", .num 5)]) (.obj []) .null .null rfl rfl rfl rfl rfl

/-! ## Claim C7: interruption handling -/

/-- Claim C7 counterexample: the claim says an interrupt triggers a final
unconditional flush of any non-empty buffer.  In the code, the final-batch
save sits inside the `try` block, so an interrupt with one record buffered
writes no batch at all — the summary (status "interrupted", counts as
collected) is the only output; the same run without interrupt does write the
final batch. -/
theorem C7_counterexample :
    (run_full_ingestion 2 (fun _ => true) [[0]] (some 1)).written = []
    ∧ (run_full_ingestion 2 (fun _ => true) [[0]] (some 1)).summary
        = ⟨"interrupted", 1, 0⟩
    ∧ (run_full_ingestion 2 (fun _ => true) [[0]] (none : Option Nat)).written = [[0]] :=
  ⟨rfl, rfl, rfl⟩

/-- Claim C7 (amended): an interruption during measurement collection writes
a summary with status "interrupted" and counts equal to everything collected
before the signal, and keeps the batches flushed before the signal; but no
final flush happens — whatever is still buffered at the interrupt is missing
from the written batches (written records + buffered records = collected
records). -/
theorem C7_amended {M : Type} (batch_size k : Nat) (chunks : List (List M)) :
    run_full_ingestion batch_size (fun _ => true) chunks (some k)
        = ⟨(run_measurement_phase batch_size (fun _ => true) (chunks.take k)).written,
           ⟨"interrupted",
            (run_measurement_phase batch_size (fun _ => true) (chunks.take k)).count,
            (run_measurement_phase batch_size (fun _ => true) (chunks.take k)).batchCount⟩⟩
    ∧ (run_measurement_phase batch_size (fun _ => true) (chunks.take k)).count
        = ((chunks.take k).map List.length).sum
    ∧ ((run_measurement_phase batch_size (fun _ => true) (chunks.take k)).written.map List.length).sum
          + (run_measurement_phase batch_size (fun _ => true) (chunks.take k)).buffer.length
        = ((chunks.take k).map List.length).sum := by
  obtain ⟨h1, h2⟩ := flushStep_invariant batch_size (chunks.take k) ⟨[], [], 0, 0⟩
  refine ⟨rfl, ?_, ?_⟩
  · rw [run_measurement_phase, h1]
    simp
  · rw [run_measurement_phase, h2]
    simp

/-! ## Claim C8: terminal fetch failure during pagination -/

/-- Claim C8: when a fetch fails terminally during pagination, the loop
stops and returns the records accumulated so far as an ordinary partial
result (no exception escapes): after `k` full consistent pages and a
terminal failure, the paginator returns the first `k * L` records after
`k + 1` requests. -/
theorem C8_partial_on_failure {α : Type} (L k fuel : Nat) (stream : List α)
    (hL : 1 ≤ L) (hk : k * L ≤ stream.length) (hfuel : k + 1 ≤ fuel) :
    get_all_locations_for_country (flakyApi stream L k) L fuel
        = (stream.take (k * L), k + 1) :=
  flaky_pagination L hL k stream fuel hk hfuel

/-- Claim C8 witness: page size 2, failure on the 3rd request, a 6-record
stream: the paginator returns the 4 records of the 2 pages served. -/
theorem C8_witness :
    get_all_locations_for_country (flakyApi [0, 1, 2, 3, 4, 5] 2 2) 2 3
        = ([0, 1, 2, 3, 4, 5].take (2 * 2), 2 + 1) :=
  C8_partial_on_failure 2 2 3 [0, 1, 2, 3, 4, 5] (by norm_num) (by norm_num) (by norm_num)

/-! ## Claim C9: context injection round-trip -/

/-- Claim C9: reading the injected context columns back out of the flat
record produced by flattening recovers the parent context's location id,
location name and coordinates exactly. -/
theorem C9_roundtrip (raw ctx sid ts flat : Val)
    (h : flattenMeasurement raw ctx sid ts = .ok flat) :
    flat.get1 "location_id" = ctx.get1 "location_id"
    ∧ flat.get1 "location_name" = ctx.get1 "location_name"
    ∧ flat.get1 "coordinates_lat"
        = (ctx.getDefault "coordinates" (.obj [])).bind (fun c => c.get1 "latitude")
    ∧ flat.get1 "coordinates_lon"
        = (ctx.getDefault "coordinates" (.obj [])).bind (fun c => c.get1 "longitude") := by
  rw [flattenMeasurement] at h
  obtain ⟨kvs, hkvs, hrest⟩ := exceptBind_ok h
  rw [contextCols] at hkvs
  obtain ⟨sname, h1, hkvs⟩ := exceptBind_ok hkvs
  obtain ⟨lid, h2, hkvs⟩ := exceptBind_ok hkvs
  obtain ⟨lname, h3, hkvs⟩ := exceptBind_ok hkvs
  obtain ⟨country, h4, hkvs⟩ := exceptBind_ok hkvs
  obtain ⟨cname, h5, hkvs⟩ := exceptBind_ok hkvs
  obtain ⟨ccode, h6, hkvs⟩ := exceptBind_ok hkvs
  obtain ⟨coords, h7, hkvs⟩ := exceptBind_ok hkvs
  obtain ⟨lat, h8, hkvs⟩ := exceptBind_ok hkvs
  obtain ⟨lon, h9, hkvs⟩ := exceptBind_ok hkvs
  obtain ⟨tz, h10, hkvs⟩ := exceptBind_ok hkvs
  obtain ⟨provider, h11, hkvs⟩ := exceptBind_ok hkvs
  obtain ⟨pname, h12, hkvs⟩ := exceptBind_ok hkvs
  have hk : kvs = [("sensor_id", sid), ("sensor_name", sname), ("location_id", lid),
      ("location_name", lname), ("country_name", cname), ("country_code", ccode),
      ("coordinates_lat", lat), ("coordinates_lon", lon), ("timezone", tz),
      ("provider_name", pname), ("ingestion_timestamp", ts)] := by
    simpa [Pure.pure, Except.pure] using hkvs.symm
  subst hk
  cases raw with
  | obj fs =>
    have hflat : flat = .obj (dictUpdate fs [("sensor_id", sid), ("sensor_name", sname),
        ("location_id", lid), ("location_name", lname), ("country_name", cname),
        ("country_code", ccode), ("coordinates_lat", lat), ("coordinates_lon", lon),
        ("timezone", tz), ("provider_name", pname), ("ingestion_timestamp", ts)]) := by
      simpa [Pure.pure, Except.pure] using hrest.symm
    subst hflat
    rw [h2, h7]
    refine ⟨?_, ?_, ?_, ?_⟩
    · rw [Val.get1]
      simp only [dictUpdate, List.foldl_cons, List.foldl_nil]
      rw [lookup_dictInsert_ne _ _ _ _ (by decide), lookup_dictInsert_ne _ _ _ _ (by decide),
        lookup_dictInsert_ne _ _ _ _ (by decide), lookup_dictInsert_ne _ _ _ _ (by decide),
        lookup_dictInsert_ne _ _ _ _ (by decide), lookup_dictInsert_ne _ _ _ _ (by decide),
        lookup_dictInsert_ne _ _ _ _ (by decide), lookup_dictInsert_ne _ _ _ _ (by decide),
        lookup_dictInsert_self]
      rfl
    · rw [h3, Val.get1]
      simp only [dictUpdate, List.foldl_cons, List.foldl_nil]
      rw [lookup_dictInsert_ne _ _ _ _ (by decide), lookup_dictInsert_ne _ _ _ _ (by decide),
        lookup_dictInsert_ne _ _ _ _ (by decide), lookup_dictInsert_ne _ _ _ _ (by decide),
        lookup_dictInsert_ne _ _ _ _ (by decide), lookup_dictInsert_ne _ _ _ _ (by decide),
        lookup_dictInsert_ne _ _ _ _ (by decide), lookup_dictInsert_self]
      rfl
    · rw [show Except.bind (Except.ok coords) (fun c => c.get1 "latitude")
          = coords.get1 "latitude" from rfl, h8, Val.get1]
      simp only [dictUpdate, List.foldl_cons, List.foldl_nil]
      rw [lookup_dictInsert_ne _ _ _ _ (by decide), lookup_dictInsert_ne _ _ _ _ (by decide),
        lookup_dictInsert_ne _ _ _ _ (by decide), lookup_dictInsert_ne _ _ _ _ (by decide),
        lookup_dictInsert_self]
      rfl
    · rw [show Except.bind (Except.ok coords) (fun c => c.get1 "longitude")
          = coords.get1 "longitude" from rfl, h9, Val.get1]
      simp only [dictUpdate, List.foldl_cons, List.foldl_nil]
      rw [lookup_dictInsert_ne _ _ _ _ (by decide), lookup_dictInsert_ne _ _ _ _ (by decide),
        lookup_dictInsert_ne _ _ _ _ (by decide), lookup_dictInsert_self]
      rfl
  | null => exact absurd hrest (by simp)
  | bool b => exact absurd hrest (by simp)
  | num n => exact absurd hrest (by simp)
  | str s => exact absurd hrest (by simp)
  | arr xs => exact absurd hrest (by simp)

/-- Claim C9 witness at a concrete raw record and context. -/
theorem C9_witness :
    flatW.get1 "location_id" = ctxW.get1 "location_id"
    ∧ flatW.get1 "location_name" = ctxW.get1 "location_name"
    ∧ flatW.get1 "coordinates_lat"
        = (ctxW.getDefault "coordinates" (.obj [])).bind (fun c => c.get1 "latitude")
    ∧ flatW.get1 "coordinates_lon"
        = (ctxW.getDefault "coordinates" (.obj [])).bind (fun c => c.get1 "longitude") :=
  C9_roundtrip rawW ctxW (.num 3) (.str "t0") flatW rfl

/-! ## Claim C10: falsy sensor ids are skipped -/

/-- Claim C10: a sensor record whose `sensor_id` is missing or falsy (null,
or the integer 0) is skipped entirely by `if not sensor_id: return []` —
zero HTTP requests are made and the empty measurement list is returned, so
a valid sensor id of 0 is silently dropped. -/
theorem C10_falsy_sensor_skipped (api : Nat → Option (List Val)) (ts : Val)
    (limit fuel : Nat) (fs : List (String × Val))
    (h : fs.lookup "sensor_id" = none ∨ fs.lookup "sensor_id" = some Val.null
        ∨ fs.lookup "sensor_id" = some (Val.num 0)) :
    get_sensor_measurements_single api (.obj fs) ts limit fuel = (.ok [], 0) := by
  rw [get_sensor_measurements_single, Val.get1]
  rcases h with h | h | h <;> rw [h] <;> simp [Val.truthy]

/-- Claim C10 witness: a sensor record carrying the literal id 0 is skipped
with zero requests. -/
theorem C10_witness :
    get_sensor_measurements_single (fun _ => none) (.obj [("sensor_id", Val.num 0)])
      .null 1000 5 = (.ok [], 0) :=
  C10_falsy_sensor_skipped (fun _ => none) .null 1000 5 [("sensor_id", Val.num 0)]
    (Or.inr (Or.inr rfl))

end AirQuality
